import Mathlib

/-!
Verification development for the Dutchie GraphQL menu crawler
(src/scraping/dutchie_graphql.py and src/scraping/dutchie_parser.py).

JSON values are embedded as the inductive type JVal (Python None, bool,
int/float collapsed to a rational, str, list, dict).  Python dicts are
association lists with string keys; dict.get returns JVal.null for a
missing key, matching Python None.  Python truthiness and the
left-to-right or-chains of the source are modelled explicitly.
Numbers are modelled by rationals; Python float printing is modelled by
decimal rendering of rationals with a power-of-ten denominator, which is
exact on the JSON decimal literals the crawler sees.
-/

inductive JVal where
  | null : JVal
  | bool (b : Bool) : JVal
  | num (q : ℚ) : JVal
  | str (s : String) : JVal
  | arr (xs : List JVal) : JVal
  | obj (kvs : List (String × JVal)) : JVal

mutual

def JVal.decEq : (a b : JVal) → Decidable (a = b)
  | .null, .null => isTrue rfl
  | .null, .bool _ => isFalse (fun h => JVal.noConfusion h)
  | .null, .num _ => isFalse (fun h => JVal.noConfusion h)
  | .null, .str _ => isFalse (fun h => JVal.noConfusion h)
  | .null, .arr _ => isFalse (fun h => JVal.noConfusion h)
  | .null, .obj _ => isFalse (fun h => JVal.noConfusion h)
  | .bool _, .null => isFalse (fun h => JVal.noConfusion h)
  | .bool a, .bool b =>
    if h : a = b then isTrue (by rw [h]) else isFalse (fun hh => h (by injection hh))
  | .bool _, .num _ => isFalse (fun h => JVal.noConfusion h)
  | .bool _, .str _ => isFalse (fun h => JVal.noConfusion h)
  | .bool _, .arr _ => isFalse (fun h => JVal.noConfusion h)
  | .bool _, .obj _ => isFalse (fun h => JVal.noConfusion h)
  | .num _, .null => isFalse (fun h => JVal.noConfusion h)
  | .num _, .bool _ => isFalse (fun h => JVal.noConfusion h)
  | .num a, .num b =>
    if h : a = b then isTrue (by rw [h]) else isFalse (fun hh => h (by injection hh))
  | .num _, .str _ => isFalse (fun h => JVal.noConfusion h)
  | .num _, .arr _ => isFalse (fun h => JVal.noConfusion h)
  | .num _, .obj _ => isFalse (fun h => JVal.noConfusion h)
  | .str _, .null => isFalse (fun h => JVal.noConfusion h)
  | .str _, .bool _ => isFalse (fun h => JVal.noConfusion h)
  | .str _, .num _ => isFalse (fun h => JVal.noConfusion h)
  | .str a, .str b =>
    if h : a = b then isTrue (by rw [h]) else isFalse (fun hh => h (by injection hh))
  | .str _, .arr _ => isFalse (fun h => JVal.noConfusion h)
  | .str _, .obj _ => isFalse (fun h => JVal.noConfusion h)
  | .arr _, .null => isFalse (fun h => JVal.noConfusion h)
  | .arr _, .bool _ => isFalse (fun h => JVal.noConfusion h)
  | .arr _, .num _ => isFalse (fun h => JVal.noConfusion h)
  | .arr _, .str _ => isFalse (fun h => JVal.noConfusion h)
  | .arr xs, .arr ys =>
    match JVal.decEqList xs ys with
    | isTrue h => isTrue (by rw [h])
    | isFalse h => isFalse (fun hh => h (by injection hh))
  | .arr _, .obj _ => isFalse (fun h => JVal.noConfusion h)
  | .obj _, .null => isFalse (fun h => JVal.noConfusion h)
  | .obj _, .bool _ => isFalse (fun h => JVal.noConfusion h)
  | .obj _, .num _ => isFalse (fun h => JVal.noConfusion h)
  | .obj _, .str _ => isFalse (fun h => JVal.noConfusion h)
  | .obj _, .arr _ => isFalse (fun h => JVal.noConfusion h)
  | .obj xs, .obj ys =>
    match JVal.decEqKV xs ys with
    | isTrue h => isTrue (by rw [h])
    | isFalse h => isFalse (fun hh => h (by injection hh))

def JVal.decEqList : (xs ys : List JVal) → Decidable (xs = ys)
  | [], [] => isTrue rfl
  | [], _ :: _ => isFalse (fun h => List.noConfusion h)
  | _ :: _, [] => isFalse (fun h => List.noConfusion h)
  | x :: xs, y :: ys =>
    match JVal.decEq x y with
    | isFalse h1 => isFalse (fun hh => h1 (by injection hh))
    | isTrue h1 =>
      match JVal.decEqList xs ys with
      | isTrue h2 => isTrue (by rw [h1, h2])
      | isFalse h2 => isFalse (fun hh => h2 (by injection hh))

def JVal.decEqKV : (xs ys : List (String × JVal)) → Decidable (xs = ys)
  | [], [] => isTrue rfl
  | [], _ :: _ => isFalse (fun h => List.noConfusion h)
  | _ :: _, [] => isFalse (fun h => List.noConfusion h)
  | (k1, v1) :: xs, (k2, v2) :: ys =>
    if hk : k1 = k2 then
      match JVal.decEq v1 v2 with
      | isFalse h1 => isFalse (fun hh => by
          injection hh with h3 h4
          exact h1 (by rw [hk] at h3; injection h3))
      | isTrue h1 =>
        match JVal.decEqKV xs ys with
        | isTrue h2 => isTrue (by rw [hk, h1, h2])
        | isFalse h2 => isFalse (fun hh => h2 (by injection hh))
    else isFalse (fun hh => by
      injection hh with h3 h4
      exact hk (by injection h3))

end

instance : DecidableEq JVal := JVal.decEq

/-- PyDict models a Python dict with string keys (key order preserved). -/
abbrev PyDict := List (String × JVal)

/-- ASCII lower-casing of one character, modelling Python str.lower on the
ASCII field names and stock strings the crawler compares. -/
def lowerChar (c : Char) : Char :=
  if 65 ≤ c.toNat ∧ c.toNat ≤ 90 then Char.ofNat (c.toNat + 32) else c

/-- ASCII upper-casing of one character, modelling Python str.upper. -/
def upperChar (c : Char) : Char :=
  if 97 ≤ c.toNat ∧ c.toNat ≤ 122 then Char.ofNat (c.toNat - 32) else c

/-- Model of Python str.lower (ASCII range). -/
def strLower (s : String) : String := String.mk (s.data.map lowerChar)

/-- Model of Python str.upper (ASCII range). -/
def strUpper (s : String) : String := String.mk (s.data.map upperChar)

/-- Whitespace test for the strip model. -/
def isWs (c : Char) : Bool := c = ' ' || c = '\t' || c = '\n' || c = '\r'

/-- Model of Python str.strip with no argument. -/
def strStrip (s : String) : String :=
  String.mk (((s.data.dropWhile isWs).reverse.dropWhile isWs).reverse)

/-- Model of Python dict.get(k): the value of the first matching key, or
JVal.null (Python None) when the key is absent. -/
def dget (kvs : PyDict) (k : String) : JVal :=
  match kvs.find? (fun kv => kv.1 = k) with
  | some kv => kv.2
  | none => .null

/-- Python truthiness of a JSON value. -/
def truthy : JVal → Bool
  | .null => false
  | .bool b => b
  | .num q => q ≠ 0
  | .str s => s ≠ ""
  | .arr xs => !xs.isEmpty
  | .obj kvs => !kvs.isEmpty

/-- Model of the Python expression x or y: x when truthy, else y. -/
def pyOr (x y : JVal) : JVal := if truthy x then x else y

/-- Decimal exponent of a denominator: least k with d dividing 10 to the k. -/
def decDigits (d : Nat) : Option Nat :=
  (List.range 21).find? (fun k => 10 ^ k % d = 0)

/-- Pad a natural number with leading zeros to k digits. -/
def natDigitsPad (n k : Nat) : String :=
  let s := toString n
  if s.length < k then String.mk (List.replicate (k - s.length) '0') ++ s else s

/-- Python str() of a number: integers print without a decimal point,
ratios with a power-of-ten denominator print as exact decimals. -/
def pyStrNum (q : ℚ) : String :=
  if q.den = 1 then toString q.num
  else
    match decDigits q.den with
    | some k =>
      let scaled := q.num.natAbs * (10 ^ k / q.den)
      let sign := if q.num < 0 then "-" else ""
      sign ++ toString (scaled / 10 ^ k) ++ "." ++ natDigitsPad (scaled % 10 ^ k) k
    | none => toString q.num ++ "/" ++ toString q.den

/-- Model of Python str() on the scalar values the crawler stringifies. -/
def pyStr : JVal → String
  | .null => "None"
  | .bool b => if b then "True" else "False"
  | .num q => pyStrNum q
  | .str s => s
  | .arr _ => ""
  | .obj _ => ""

/-! ### Stock-availability policy (dutchie_graphql.py lines 27-37, 102-153, 232-249) -/

/-- Lower-cased stock-bearing field names, source lines 27-37. -/
def stockKeysL : List String :=
  ["instock", "isavailable", "available", "stockstatus", "inventorystatus",
   "quantityavailable", "quantity"]

/-- Out-of-stock strings tested by the product-level check, lines 115-122. -/
def outSixL : List String :=
  ["false", "0", "out_of_stock", "out of stock", "unavailable", "no"]

/-- Out-of-stock strings tested by both variant-level checks,
lines 139-144 and 239-244. -/
def outFourL : List String :=
  ["false", "0", "out_of_stock", "unavailable"]

/-- Product-level stock loop of is_in_stock, lines 109-124: the first
recognised stock key whose value is a bool, string or number decides;
recognised keys with other value types are skipped. -/
def isInStockTop : PyDict → Option Bool
  | [] => none
  | (k, v) :: rest =>
    if strLower k ∈ stockKeysL then
      match v with
      | .bool b => some b
      | .str s => some (decide (strLower s ∉ outSixL))
      | .num q => some (decide (0 < q))
      | _ => isInStockTop rest
    else isInStockTop rest

/-- Variant scan inside is_in_stock, lines 129-148: true when some
recognised stock field of the variant carries a positive signal. -/
def variantPositiveSignal : JVal → Bool
  | .obj vk =>
    vk.any (fun kv =>
      decide (strLower kv.1 ∈ stockKeysL) &&
        (match kv.2 with
         | .bool b => b
         | .str s => decide (strLower s ∉ outFourL)
         | .num q => decide (0 < q)
         | _ => false))
  | _ => false

/-- Model of _is_in_stock, lines 102-153.  After the product-level loop
finds no typed stock field, every remaining path of the source returns
True (early return in the variant loop, line 150, and line 153). -/
def is_in_stock (p : PyDict) : Bool :=
  match isInStockTop p with
  | some b => b
  | none =>
    match pyOr (pyOr (dget p "variants") (dget p "options")) (.arr []) with
    | .arr vs =>
      if vs.isEmpty then true
      else if vs.any variantPositiveSignal then true
      else true
    | _ => true

/-- Per-variant stock check of _build_rows_from_product, lines 232-247:
the first recognised stock key decides and the loop breaks; a recognised
key with a value of another type leaves the default True in place. -/
def variantInStock (vk : PyDict) : Bool :=
  match vk.find? (fun kv => decide (strLower kv.1 ∈ stockKeysL)) with
  | none => true
  | some kv =>
    match kv.2 with
    | .bool b => b
    | .str s => decide (strLower s ∉ outFourL)
    | .num q => decide (0 < q)
    | _ => true

/-! ### Cannabinoid extraction (dutchie_graphql.py lines 156-180) -/

/-- Name of one cannabinoids entry, lines 165-171. -/
def cannEntryName (c : PyDict) : JVal :=
  let cbObj := pyOr (dget c "cannabinoid") (.obj [])
  match cbObj with
  | .obj kvs => pyOr (dget kvs "name") (.str "")
  | .str s => .str s
  | _ => pyOr (pyOr (dget c "cannabinoidType") (dget c "name")) (.str "")

/-- Loop body of _extract_cannabinoid over the cannabinoids list. -/
def cannGo (target : String) : List JVal → Option String
  | [] => none
  | c :: rest =>
    match c with
    | .obj kvs =>
      (match cannEntryName kvs with
       | .str s =>
         if strUpper s = strUpper target then
           let val := pyOr (pyOr (dget kvs "value") (dget kvs "formattedValue"))
             (dget kvs "percentageValue")
           if val = .null then cannGo target rest else some (pyStr val)
         else cannGo target rest
       | _ => cannGo target rest)
    | _ => cannGo target rest

/-- Model of _extract_cannabinoid, lines 156-180.  A truthy non-list
cannabinoids value iterates over keys or characters in the source and
never matches a dict entry, so it also yields none. -/
def extract_cannabinoid (p : PyDict) (target : String) : Option String :=
  match pyOr (dget p "cannabinoids") (.arr []) with
  | .arr cs => cannGo target cs
  | _ => none

/-! ### Row building (dutchie_graphql.py lines 183-304) -/

/-- One output row of the crawler, lines 267-302. -/
structure Row where
  product : String
  menuType : Option String
  category : JVal
  brand : JVal
  thc : Option String
  cbd : Option String
  price : JVal
  size : Option String
  sku : Option String
  source : String
  sourceUrl : String
deriving DecidableEq

/-- Name resolution of _build_rows_from_product, lines 190-198: the
or-chain over name, title, displayName must produce a string whose strip
is nonempty; the stripped string is used. -/
def getProductName (p : PyDict) : Option String :=
  match pyOr (pyOr (dget p "name") (dget p "title")) (dget p "displayName") with
  | .str s => if strStrip s = "" then none else some (strStrip s)
  | _ => none

/-- Category resolution, lines 200-207. -/
def getCategory (p : PyDict) : JVal :=
  match pyOr (pyOr (pyOr (dget p "category") (dget p "type")) (dget p "productType"))
      (dget p "kind") with
  | .obj kvs => pyOr (dget kvs "name") (dget kvs "title")
  | v => v

/-- Brand resolution, lines 209-214. -/
def getBrand (p : PyDict) : JVal :=
  match pyOr (dget p "brand") (dget p "brandInfo") with
  | .obj kvs => pyOr (dget kvs "name") (dget kvs "title")
  | .str s => .str s
  | _ => .null

/-- Product identifier, lines 218-222. -/
def productIdOf (p : PyDict) : JVal :=
  pyOr (pyOr (dget p "id") (dget p "productId")) (dget p "slug")

/-- Variants value, line 224 (with the literal empty-list default). -/
def variantsOf (p : PyDict) : JVal :=
  pyOr (pyOr (dget p "variants") (dget p "options")) (.arr [])

/-- Row built for one in-stock variant, lines 251-281. -/
def variantRow (p : PyDict) (url : String) (mt : Option String) (name : String)
    (vk : PyDict) : Row :=
  let price := pyOr (pyOr (pyOr (dget vk "specialPrice") (dget vk "price"))
    (dget vk "amount")) (dget vk "listPrice")
  let size := pyOr (pyOr (dget vk "size") (dget vk "weight")) (dget vk "option")
  let variantId := pyOr (dget vk "id") (dget vk "variantId")
  { product := name
    menuType := mt
    category := getCategory p
    brand := getBrand p
    thc := extract_cannabinoid p "THC"
    cbd := extract_cannabinoid p "CBD"
    price := price
    size := if size = .null then none else some (pyStr size)
    sku :=
      if truthy variantId then some (pyStr variantId)
      else if truthy (productIdOf p) then some (pyStr (productIdOf p)) else none
    source := "Dutchie GraphQL"
    sourceUrl := url }

/-- Single product-level row of the no-variants branch, lines 283-302. -/
def productLevelRow (p : PyDict) (url : String) (mt : Option String)
    (name : String) : Row :=
  let price0 := pyOr (pyOr (dget p "price") (dget p "basePrice")) (dget p "amount")
  let price :=
    match price0 with
    | .obj kvs => pyOr (dget kvs "amount") (dget kvs "value")
    | v => v
  { product := name
    menuType := mt
    category := getCategory p
    brand := getBrand p
    thc := extract_cannabinoid p "THC"
    cbd := extract_cannabinoid p "CBD"
    price := price
    size := none
    sku := if truthy (productIdOf p) then some (pyStr (productIdOf p)) else none
    source := "Dutchie GraphQL"
    sourceUrl := url }

/-- Model of _build_rows_from_product, lines 183-304.  The variant loop
appends one row per dict variant passing the per-variant stock check;
non-dict variants are skipped; when the variants value is a nonempty
list the product-level branch is not taken. -/
def build_rows_from_product (p : PyDict) (url : String) (mt : Option String) :
    List Row :=
  match getProductName p with
  | none => []
  | some name =>
    match variantsOf p with
    | .arr vs =>
      if vs.isEmpty then [productLevelRow p url mt name]
      else
        vs.foldl (fun acc v =>
          match v with
          | .obj vk =>
            if variantInStock vk then acc ++ [variantRow p url mt name vk] else acc
          | _ => acc) []
    | _ => [productLevelRow p url mt name]

/-! ### Payload extraction (dutchie_graphql.py lines 307-362) -/

/-- Known nested paths to the product array, lines 308-313. -/
def productArrayPaths : List (List String) :=
  [["data", "filteredProducts", "products"],
   ["data", "products", "products"],
   ["data", "menuProducts"],
   ["data", "products"]]

/-- Path walk of lines 324-328: keys are followed while the current value
is a dict; the walk stops early at the first non-dict value. -/
def followPath : JVal → List String → JVal
  | obj, [] => obj
  | obj, key :: rest =>
    match obj with
    | .obj kvs => followPath (dget kvs key) rest
    | v => v

/-- Known-path loop of lines 323-330: the first path whose walk ends on a
list wins. -/
def tryPaths : List (List String) → JVal → Option (List JVal)
  | [], _ => none
  | path :: rest, body =>
    match followPath body path with
    | .arr xs => some xs
    | _ => tryPaths rest body

/-- Test of line 353: a dict carrying a name or title key. -/
def isNamedDict : JVal → Bool
  | .obj kvs => kvs.any (fun kv => decide (kv.1 = "name") || decide (kv.1 = "title"))
  | _ => false

mutual

/-- Model of _find_product_list, lines 336-362. -/
def find_product_list (v : JVal) (depth maxDepth : Nat) : List JVal :=
  if depth > maxDepth then []
  else
    match v with
    | .obj kvs => fplObj kvs depth maxDepth []
    | .arr xs =>
      let named := (xs.filter isNamedDict).length
      if named ≥ min 2 xs.length ∧ 0 < named then xs
      else fplArr xs depth maxDepth []
    | _ => []

/-- Best-candidate fold over dict values, lines 343-347. -/
def fplObj : List (String × JVal) → Nat → Nat → List JVal → List JVal
  | [], _, _, best => best
  | (_, v) :: rest, depth, maxDepth, best =>
    let candidate := find_product_list v (depth + 1) maxDepth
    fplObj rest depth maxDepth (if best.length < candidate.length then candidate else best)

/-- Best-candidate fold over list items, lines 357-360. -/
def fplArr : List JVal → Nat → Nat → List JVal → List JVal
  | [], _, _, best => best
  | item :: rest, depth, maxDepth, best =>
    let candidate := find_product_list item (depth + 1) maxDepth
    fplArr rest depth maxDepth (if best.length < candidate.length then candidate else best)

end

/-- Model of _extract_products_from_payload, lines 316-333. -/
def extract_products_from_payload (payload : PyDict) : List JVal :=
  match pyOr (dget payload "json") (dget payload "data") with
  | .obj kvs =>
    if kvs.isEmpty then []
    else
      match tryPaths productArrayPaths (.obj kvs) with
      | some xs => xs
      | none => find_product_list (.obj kvs) 0 6
  | _ => []

/-! ### THC extraction of the generic parser (dutchie_parser.py lines 33-80) -/

/-- Lower-cased THC field names, dutchie_parser.py lines 34-36. -/
def thcKeysL : List String :=
  ["thc", "thccontent", "thcpercentage", "thcmax", "thcmin", "thclevel"]

/-- ASCII digit test. -/
def isDigitC (c : Char) : Bool := 48 ≤ c.toNat && c.toNat ≤ 57

/-- Numeric value of a digit list. -/
def natOfDigits (ds : List Char) : Nat :=
  ds.foldl (fun n c => 10 * n + (c.toNat - 48)) 0

/-- Rational value of an integer digit part and a fractional digit part. -/
def decimalOfParts (ip fp : List Char) : ℚ :=
  if fp.isEmpty then (natOfDigits ip : ℚ)
  else (natOfDigits ip : ℚ) + (natOfDigits fp : ℚ) / (10 ^ fp.length : ℚ)

/-- Value of the regex match starting at a digit position: one maximal
digit run, an optional single dot, then a maximal digit run, following
the greedy pattern digits plus optional dot plus digits of line 74. -/
def matchDecimalAt (cs : List Char) : ℚ :=
  let ip := cs.takeWhile isDigitC
  let rest := cs.drop ip.length
  match rest with
  | '.' :: rest2 => decimalOfParts ip (rest2.takeWhile isDigitC)
  | _ => decimalOfParts ip []

/-- Scan for the first digit position, as re.search does on this pattern. -/
def firstDecimalAux : List Char → Option ℚ
  | [] => none
  | c :: rest =>
    if isDigitC c then some (matchDecimalAt (c :: rest)) else firstDecimalAux rest

/-- First decimal number appearing in a string, the float of the first
match of the pattern on line 74 of dutchie_parser.py. -/
def firstDecimal (s : String) : Option ℚ := firstDecimalAux s.data

/-- Model of _extract_thc, dutchie_parser.py lines 67-80.  The bool case
mirrors Python treating bool as an int instance on line 71. -/
def extract_thc : PyDict → Option ℚ
  | [] => none
  | (k, v) :: rest =>
    if strLower k ∈ thcKeysL then
      match v with
      | .bool b => some (if b then 1 else 0)
      | .num q => some q
      | .str s =>
        (match firstDecimal s with
         | some q => some q
         | none => extract_thc rest)
      | _ => extract_thc rest
    else extract_thc rest

/-! ### Final numeric coercion (dutchie_graphql.py lines 691-697)

The call pd.to_numeric(df[Price], errors=coerce) is modelled per entry:
numbers and bools convert, strings convert exactly when they spell a
signed decimal numeral, everything else becomes NaN, written none. -/

/-- Parse an unsigned decimal numeral spanning the whole character list. -/
def parseUnsigned (cs : List Char) : Option ℚ :=
  let ip := cs.takeWhile isDigitC
  let rest := cs.drop ip.length
  match rest with
  | [] => if ip.isEmpty then none else some ((natOfDigits ip : ℚ))
  | '.' :: rest2 =>
    let fp := rest2.takeWhile isDigitC
    let rest3 := rest2.drop fp.length
    if rest3.isEmpty && !(ip.isEmpty && fp.isEmpty) then some (decimalOfParts ip fp)
    else none
  | _ => none

/-- Numeric parse of a stripped string with an optional sign. -/
def to_numeric_string (s : String) : Option ℚ :=
  match (strStrip s).data with
  | '+' :: cs => parseUnsigned cs
  | '-' :: cs => (parseUnsigned cs).map Neg.neg
  | cs => parseUnsigned cs

/-- Per-entry model of pd.to_numeric with errors coerce; none is NaN. -/
def to_numeric_coerce : JVal → Option ℚ
  | .num q => some q
  | .bool b => some (if b then 1 else 0)
  | .str s => to_numeric_string s
  | _ => none

/-! ### Crawl loop (dutchie_graphql.py lines 462-697)

The browser is abstracted by the function giving, for each page number,
the rows extracted from the responses captured during that navigation
(the value of the page_products variable computed on lines 642-653).
Everything after that point in the per-category loop, lines 655-680, is
translated directly: the empty-page stop, the repeated-signature stop,
deduplication into the global state and the recorded page counts. -/

/-- Dedup key of one row, line 509. -/
def rowKey (r : Row) : String × JVal × Option String := (r.product, r.price, r.size)

/-- Global crawl state: the seen-key set and the accumulated rows,
lines 503-504. -/
structure CrawlState where
  seen : List (String × JVal × Option String)
  allRows : List Row
deriving DecidableEq

/-- Model of _dedup_and_add, lines 506-514: keys not yet seen are added
to the seen set and their rows appended; the count of added rows is
returned. -/
def dedup_and_add : CrawlState → List Row → CrawlState × Nat
  | st, [] => (st, 0)
  | st, r :: rs =>
    if rowKey r ∈ st.seen then dedup_and_add st rs
    else
      let res := dedup_and_add { seen := rowKey r :: st.seen,
                                 allRows := st.allRows ++ [r] } rs
      (res.1, res.2 + 1)

/-- Page signature, line 666: the keys of the rows of one page, as the
underlying list of a frozenset. -/
def sigOf (rows : List Row) : List (String × JVal × Option String) :=
  rows.map rowKey

/-- Subset test between key lists. -/
def sigSub (a b : List (String × JVal × Option String)) : Bool :=
  a.all (fun k => decide (k ∈ b))

/-- Frozenset equality: mutual containment of the key lists. -/
def sigEq (a b : List (String × JVal × Option String)) : Bool :=
  sigSub a b && sigSub b a

/-- Membership of a signature in the set of previous signatures,
line 670, comparing frozensets by set equality. -/
def sigMem (s : List (String × JVal × Option String))
    (sigs : List (List (String × JVal × Option String))) : Bool :=
  sigs.any (fun t => sigEq s t)

/-- Result of crawling one category: final global state, the pages
navigated to in order, and the recorded per-page counts. -/
structure CatRun where
  state : CrawlState
  requested : List Nat
  counts : List (Nat × Nat)
deriving DecidableEq

/-- Per-category page loop, lines 628-680.  The fuel argument is the
number of remaining iterations of the range over pages. -/
def crawlCatAux (F : Nat → List Row) (pg fuel : Nat)
    (prevSigs : List (List (String × JVal × Option String)))
    (st : CrawlState) (req : List Nat) (counts : List (Nat × Nat)) : CatRun :=
  match fuel with
  | 0 => ⟨st, req, counts⟩
  | fuel + 1 =>
    let rows := F pg
    if rows.isEmpty then ⟨st, req ++ [pg], counts ++ [(pg, 0)]⟩
    else
      let sig := sigOf rows
      if sigMem sig prevSigs then ⟨st, req ++ [pg], counts ++ [(pg, 0)]⟩
      else
        let da := dedup_and_add st rows
        crawlCatAux F (pg + 1) fuel (sig :: prevSigs) da.1
          (req ++ [pg]) (counts ++ [(pg, da.2)])

/-- One category crawl, starting at page 1 with no previous signatures,
line 626 and 628. -/
def crawlCat (F : Nat → List Row) (maxPages : Nat) (st : CrawlState) : CatRun :=
  crawlCatAux F 1 maxPages [] st [] []

/-- Stock filter and row building over the product nodes of one payload,
lines 646-653.  Product nodes are dict-shaped on every run that reaches
this point: a non-dict node makes the source raise inside the crawl-wide
exception handler, so the model carries only dict nodes forward. -/
def filterBuild (prods : List JVal) (url : String) (mt : Option String) : List Row :=
  prods.foldr (fun prod acc =>
    (match prod with
     | .obj kvs => if is_in_stock kvs then build_rows_from_product kvs url mt else []
     | _ => []) ++ acc) []

/-- Rows of one page from its captured payloads, lines 642-653. -/
def pageRows (url : String) (mt : Option String) (payloads : List PyDict) : List Row :=
  payloads.foldr (fun payload acc =>
    filterBuild (extract_products_from_payload payload) url mt ++ acc) []

/-- Category-by-category crawl, lines 624-684: the global state threads
through every category in discovery order. -/
def crawlCategories (pageF : String → Nat → List Row) (cats : List String)
    (maxPages : Nat) (st : CrawlState) : CrawlState :=
  cats.foldl (fun s cat => (crawlCat (pageF cat) maxPages s).state) st

/-- Final table of crawl_dutchie, lines 691-697: the accumulated rows and
the Price column coerced to numbers entry by entry. -/
def crawl_dutchie_table (pageF : String → Nat → List Row) (cats : List String)
    (maxPages : Nat) : List Row × List (Option ℚ) :=
  let st := crawlCategories pageF cats maxPages ⟨[], []⟩
  (st.allRows, st.allRows.map (fun r => to_numeric_coerce r.price))

/-! ### Reference functions and concrete inputs used by the theorems -/

/-- First value among the named fields that is Python-truthy. -/
def firstTruthyVal (vk : PyDict) (keys : List String) : Option JVal :=
  (keys.map (dget vk)).find? truthy

/-- State reached by accepting the rows of pages pg, pg+1, ..., pg+d-1
through the deduplicator. -/
def addRange (F : Nat → List Row) : Nat → Nat → CrawlState → CrawlState
  | _, 0, st => st
  | pg, d + 1, st => addRange F (pg + 1) d (dedup_and_add st (F pg)).1

/-- Recorded (page, added) pairs for pages pg, ..., pg+d-1. -/
def countsRange (F : Nat → List Row) : Nat → Nat → CrawlState → List (Nat × Nat)
  | _, 0, _ => []
  | pg, d + 1, st =>
    (pg, (dedup_and_add st (F pg)).2) ::
      countsRange F (pg + 1) d (dedup_and_add st (F pg)).1

/-- Signatures of pages pg, ..., pg+d-1 in page order. -/
def sigsRange (F : Nat → List Row) (pg d : Nat) :
    List (List (String × JVal × Option String)) :=
  (List.range' pg d).map (fun j => sigOf (F j))

/-- Product node with no stock-bearing field anywhere. -/
def c1clean : PyDict := [("name", .str "W")]

/-- Product node whose only stock-bearing field is quantityAvailable 0. -/
def c1zero : PyDict := [("name", .str "W"), ("quantityAvailable", .num 0)]

/-- Product with three variants: one in stock via a boolean, one out of
stock via quantity 0, one with no stock field (hence in stock). -/
def c3p : PyDict :=
  [("name", .str "Prod"), ("brand", .str "B"),
   ("cannabinoids", .arr [.obj [("cannabinoid", .obj [("name", .str "THC")]),
                                ("value", .num 21)]]),
   ("variants", .arr
     [.obj [("id", .str "v1"), ("price", .num 10), ("size", .str "1g"),
            ("inStock", .bool true)],
      .obj [("id", .str "v2"), ("price", .num 20), ("size", .str "3.5g"),
            ("quantity", .num 0)],
      .obj [("id", .str "v3"), ("price", .num 30), ("size", .str "7g")]])]

/-- Variant list of c3p. -/
def c3vs : List JVal :=
  [.obj [("id", .str "v1"), ("price", .num 10), ("size", .str "1g"),
         ("inStock", .bool true)],
   .obj [("id", .str "v2"), ("price", .num 20), ("size", .str "3.5g"),
         ("quantity", .num 0)],
   .obj [("id", .str "v3"), ("price", .num 30), ("size", .str "7g")]]

/-- Variant whose specialPrice is present with value 0 and whose price is 5. -/
def c4variant : PyDict := [("specialPrice", .num 0), ("price", .num 5)]

/-- Product wrapping c4variant. -/
def c4p : PyDict := [("name", .str "P"), ("variants", .arr [.obj c4variant])]

/-- Inner qualifying list: four dicts carrying a name key. -/
def c5inner : List JVal :=
  [.obj [("name", .str "c")], .obj [("name", .str "d")],
   .obj [("name", .str "e")], .obj [("name", .str "f")]]

/-- Outer qualifying list of length three whose last element is the
larger inner qualifying list. -/
def c5outer : List JVal :=
  [.obj [("name", .str "a")], .obj [("name", .str "b")], .arr c5inner]

/-- Document whose only dict value is the outer list. -/
def c5body : JVal := .obj [("wrapper", .arr c5outer)]

/-- Captured payload with an unrecognised top-level shape containing one
list of five dicts, each with a title field. -/
def c5payload : PyDict :=
  [("json", .obj [("weird", .obj [("stuff",
    .arr [.obj [("title", .str "a")], .obj [("title", .str "b")],
          .obj [("title", .str "c")], .obj [("title", .str "d")],
          .obj [("title", .str "e")]])])])]

/-- The five-element product list inside c5payload. -/
def c5five : List JVal :=
  [.obj [("title", .str "a")], .obj [("title", .str "b")],
   .obj [("title", .str "c")], .obj [("title", .str "d")],
   .obj [("title", .str "e")]]

/-- One concrete output row used by the pagination witnesses. -/
def rowA : Row :=
  { product := "A", menuType := none, category := .null, brand := .null,
    thc := none, cbd := none, price := .num 10, size := none, sku := none,
    source := "Dutchie GraphQL", sourceUrl := "u" }

/-- Page-row function whose page 1 is nonempty and page 2 is empty. -/
def c6F : Nat → List Row := fun pg => if pg = 1 then [rowA] else []

/-- Page-row function serving the same single row on every page. -/
def c7F : Nat → List Row := fun _ => [rowA]

/-- Product node carrying a directly numeric thc field and no
cannabinoids array. -/
def c9p : PyDict := [("name", .str "X"), ("thc", .num 22)]

/-- Captured payload whose product has the non-numeric price $10.00. -/
def c10payload : PyDict :=
  [("json", .obj [("data", .obj [("products",
    .arr [.obj [("name", .str "X"), ("price", .str "$10.00")]])])])]

/-- Page-row function feeding c10payload on page 1 of every category. -/
def c10F : String → Nat → List Row :=
  fun _ pg => if pg = 1 then pageRows "u" none [c10payload] else []

/-- The single row built from c10payload. -/
def c10row : Row :=
  { product := "X", menuType := none, category := .null, brand := .null,
    thc := none, cbd := none, price := .str "$10.00", size := none, sku := none,
    source := "Dutchie GraphQL", sourceUrl := "u" }

/-- Outcome of the variant loop body for one element of the variants
list: a row for an in-stock dict variant, nothing otherwise. -/
def variantStep (p : PyDict) (url : String) (mt : Option String) (name : String) :
    JVal → Option Row
  | .obj vk => if variantInStock vk then some (variantRow p url mt name vk) else none
  | _ => none

/-! ## Lemmas about the stock policy -/

theorem isInStockTop_eq_none (p : PyDict)
    (h : ∀ kv ∈ p, strLower kv.1 ∉ stockKeysL) :
    isInStockTop p = none := by
  induction p with
  | nil => rfl
  | cons kv rest ih =>
    obtain ⟨k, v⟩ := kv
    simp only [isInStockTop]
    rw [if_neg (h (k, v) (List.mem_cons_self _ _))]
    exact ih fun x hx => h x (List.mem_cons_of_mem _ hx)

theorem isInStockTop_append_clean (pre rest : PyDict)
    (h : ∀ kv ∈ pre, strLower kv.1 ∉ stockKeysL) :
    isInStockTop (pre ++ rest) = isInStockTop rest := by
  induction pre with
  | nil => rfl
  | cons kv pre ih =>
    obtain ⟨k, v⟩ := kv
    simp only [List.cons_append, isInStockTop]
    rw [if_neg (h (k, v) (List.mem_cons_self _ _))]
    exact ih fun x hx => h x (List.mem_cons_of_mem _ hx)

theorem is_in_stock_of_top_none {p : PyDict} (h : isInStockTop p = none) :
    is_in_stock p = true := by
  unfold is_in_stock
  rw [h]
  split
  · simp_all
  · split
    · split
      · rfl
      · split <;> rfl
    · rfl

theorem is_in_stock_of_top_some {p : PyDict} {b : Bool}
    (h : isInStockTop p = some b) : is_in_stock p = b := by
  unfold is_in_stock
  rw [h]

theorem isInStockTop_decomp (pre post : PyDict) (k : String) (v : JVal)
    (hpre : ∀ kv ∈ pre, strLower kv.1 ∉ stockKeysL)
    (hk : strLower k ∈ stockKeysL) :
    isInStockTop (pre ++ (k, v) :: post) =
      (match v with
       | .bool b => some b
       | .str s => some (decide (strLower s ∉ outSixL))
       | .num q => some (decide (0 < q))
       | _ => isInStockTop post) := by
  rw [isInStockTop_append_clean _ _ hpre]
  simp only [isInStockTop]
  rw [if_pos hk]

theorem find?_stock_append (pre rest : PyDict)
    (h : ∀ kv ∈ pre, strLower kv.1 ∉ stockKeysL) :
    (pre ++ rest).find? (fun kv => decide (strLower kv.1 ∈ stockKeysL)) =
      rest.find? (fun kv => decide (strLower kv.1 ∈ stockKeysL)) := by
  induction pre with
  | nil => rfl
  | cons kv pre ih =>
    rw [List.cons_append, List.find?_cons_of_neg, ih fun x hx => h x (List.mem_cons_of_mem _ hx)]
    simpa using h kv (List.mem_cons_self _ _)

theorem variantInStock_decomp (pre post : PyDict) (k : String) (v : JVal)
    (hpre : ∀ kv ∈ pre, strLower kv.1 ∉ stockKeysL)
    (hk : strLower k ∈ stockKeysL) :
    variantInStock (pre ++ (k, v) :: post) =
      (match v with
       | .bool b => b
       | .str s => decide (strLower s ∉ outFourL)
       | .num q => decide (0 < q)
       | _ => true) := by
  unfold variantInStock
  rw [find?_stock_append _ _ hpre, List.find?_cons_of_pos]
  simpa using hk

/-- C1: a product node carrying no recognised stock-bearing field is
treated as in-stock and its rows are included by the stock filter, while
a product node whose stock information is the field quantityAvailable
with value 0 is treated as out of stock and contributes no rows. -/
theorem stock_default_inclusion_c1
    (p : PyDict) (hp : ∀ kv ∈ p, strLower kv.1 ∉ stockKeysL)
    (q pre post : PyDict)
    (hq : q = pre ++ ("quantityAvailable", JVal.num 0) :: post)
    (hpre : ∀ kv ∈ pre, strLower kv.1 ∉ stockKeysL)
    (url : String) (mt : Option String) :
    is_in_stock p = true ∧
    filterBuild [JVal.obj p] url mt = build_rows_from_product p url mt ∧
    is_in_stock q = false ∧
    filterBuild [JVal.obj q] url mt = [] := by
  have h1 : is_in_stock p = true := is_in_stock_of_top_none (isInStockTop_eq_none p hp)
  have h3 : is_in_stock q = false := by
    subst hq
    refine is_in_stock_of_top_some ?_
    rw [isInStockTop_decomp _ _ _ _ hpre (by decide)]
    simp
  refine ⟨h1, ?_, h3, ?_⟩
  · simp [filterBuild, h1]
  · simp [filterBuild, h3]

/-- C1 witness at concrete nodes: c1clean has no stock field and is kept,
c1zero carries quantityAvailable 0 and is dropped. -/
theorem stock_default_inclusion_c1_witness :
    is_in_stock c1clean = true ∧
    filterBuild [JVal.obj c1clean] "u" none = build_rows_from_product c1clean "u" none ∧
    is_in_stock c1zero = false ∧
    filterBuild [JVal.obj c1zero] "u" none = [] :=
  stock_default_inclusion_c1 c1clean (by decide) c1zero [("name", JVal.str "W")] []
    (by decide) (by decide) "u" none

/-- C2 counterexample: the string no belongs to the six-string
out-of-stock set of the claim, yet the per-variant stock check of the
row builder, which only tests the four-string set of source lines
239-244, marks a variant carrying inStock no as in stock, and the row
builder emits a row for it.  So a string-valued stock field does not
mark a variant out of stock exactly on the six-string set. -/
theorem stock_string_sets_c2_counterexample :
    ("no" ∈ outSixL) ∧
    variantInStock [("inStock", JVal.str "no")] = true ∧
    (build_rows_from_product
      [("name", JVal.str "P"),
       ("variants", JVal.arr [JVal.obj [("inStock", JVal.str "no"),
                                        ("price", JVal.num 10)]])]
      "u" none).length = 1 := by decide

/-- C2 amended: bool values pass through and numbers are in stock
exactly when positive at both granularities, and a string-valued stock
field is tested against the six-string set at product level but only
against the four-string set at variant level. -/
theorem stock_policy_amended_c2 :
    (∀ (pre post : PyDict) (k s : String),
       (∀ kv ∈ pre, strLower kv.1 ∉ stockKeysL) → strLower k ∈ stockKeysL →
       is_in_stock (pre ++ (k, JVal.str s) :: post) = decide (strLower s ∉ outSixL)) ∧
    (∀ (pre post : PyDict) (k : String) (b : Bool),
       (∀ kv ∈ pre, strLower kv.1 ∉ stockKeysL) → strLower k ∈ stockKeysL →
       is_in_stock (pre ++ (k, JVal.bool b) :: post) = b) ∧
    (∀ (pre post : PyDict) (k : String) (q : ℚ),
       (∀ kv ∈ pre, strLower kv.1 ∉ stockKeysL) → strLower k ∈ stockKeysL →
       is_in_stock (pre ++ (k, JVal.num q) :: post) = decide (0 < q)) ∧
    (∀ (pre post : PyDict) (k s : String),
       (∀ kv ∈ pre, strLower kv.1 ∉ stockKeysL) → strLower k ∈ stockKeysL →
       variantInStock (pre ++ (k, JVal.str s) :: post) = decide (strLower s ∉ outFourL)) ∧
    (∀ (pre post : PyDict) (k : String) (b : Bool),
       (∀ kv ∈ pre, strLower kv.1 ∉ stockKeysL) → strLower k ∈ stockKeysL →
       variantInStock (pre ++ (k, JVal.bool b) :: post) = b) ∧
    (∀ (pre post : PyDict) (k : String) (q : ℚ),
       (∀ kv ∈ pre, strLower kv.1 ∉ stockKeysL) → strLower k ∈ stockKeysL →
       variantInStock (pre ++ (k, JVal.num q) :: post) = decide (0 < q)) := by
  refine ⟨?_, ?_, ?_, ?_, ?_, ?_⟩
  · intro pre post k s hpre hk
    rw [is_in_stock_of_top_some (p := pre ++ (k, JVal.str s) :: post) ?_]
    rw [isInStockTop_decomp _ _ _ _ hpre hk]
  · intro pre post k b hpre hk
    rw [is_in_stock_of_top_some (p := pre ++ (k, JVal.bool b) :: post) ?_]
    rw [isInStockTop_decomp _ _ _ _ hpre hk]
  · intro pre post k q hpre hk
    rw [is_in_stock_of_top_some (p := pre ++ (k, JVal.num q) :: post) ?_]
    rw [isInStockTop_decomp _ _ _ _ hpre hk]
  · intro pre post k s hpre hk
    rw [variantInStock_decomp _ _ _ _ hpre hk]
  · intro pre post k b hpre hk
    rw [variantInStock_decomp _ _ _ _ hpre hk]
  · intro pre post k q hpre hk
    rw [variantInStock_decomp _ _ _ _ hpre hk]

/-- C2 amended witness at concrete inputs: the string no is in stock at
variant level but out of stock at product level, and a positive quantity
is in stock at both. -/
theorem stock_policy_amended_c2_witness :
    is_in_stock [("inStock", JVal.str "no")] = decide (strLower "no" ∉ outSixL) ∧
    variantInStock [("inStock", JVal.str "no")] = decide (strLower "no" ∉ outFourL) ∧
    is_in_stock [("quantity", JVal.num 3)] = decide ((0 : ℚ) < 3) :=
  ⟨stock_policy_amended_c2.1 [] [] "inStock" "no" (by decide) (by decide),
   stock_policy_amended_c2.2.2.2.1 [] [] "inStock" "no" (by decide) (by decide),
   stock_policy_amended_c2.2.2.1 [] [] "quantity" (3 : ℚ) (by decide) (by decide)⟩

/-! ## Lemmas about row building -/

theorem foldl_rows (g : JVal → Option Row) (step : List Row → JVal → List Row)
    (hstep : ∀ acc v, step acc v = acc ++ (g v).toList) :
    ∀ (l : List JVal) (acc : List Row), l.foldl step acc = acc ++ l.filterMap g := by
  intro l
  induction l with
  | nil => intro acc; simp
  | cons x xs ih =>
    intro acc
    rw [List.foldl_cons, hstep, ih, List.filterMap_cons]
    cases hx : g x <;> simp

theorem build_rows_variant_branch (p : PyDict) (url : String) (mt : Option String)
    (name : String) (hname : getProductName p = some name)
    (vs : List JVal) (hv : variantsOf p = .arr vs) (hne : vs ≠ []) :
    build_rows_from_product p url mt = vs.filterMap (variantStep p url mt name) := by
  unfold build_rows_from_product
  simp only [hname, hv]
  rw [if_neg (by simpa using hne)]
  rw [foldl_rows (variantStep p url mt name)]
  · simp
  · intro acc v
    cases v <;> simp [variantStep]
    split <;> simp

/-- C3: for a product with a nonempty variants list, row building emits
exactly the rows of the in-stock dict variants, one row per variant,
each carrying the parent name, brand, THC and CBD; when every variant
fails the stock check the product yields zero rows, and the
product-level branch is never used once variants exist. -/
theorem variant_fanout_c3 (p : PyDict) (url : String) (mt : Option String)
    (name : String) (hname : getProductName p = some name)
    (vs : List JVal) (hv : variantsOf p = .arr vs) (hne : vs ≠ []) :
    build_rows_from_product p url mt = vs.filterMap (variantStep p url mt name) ∧
    (∀ r ∈ build_rows_from_product p url mt,
      r.product = name ∧ r.brand = getBrand p ∧
      r.thc = extract_cannabinoid p "THC" ∧ r.cbd = extract_cannabinoid p "CBD") ∧
    ((∀ vk, JVal.obj vk ∈ vs → variantInStock vk = false) →
      build_rows_from_product p url mt = []) := by
  have hb := build_rows_variant_branch p url mt name hname vs hv hne
  refine ⟨hb, ?_, ?_⟩
  · intro r hr
    rw [hb] at hr
    obtain ⟨v, hv1, hv2⟩ := List.mem_filterMap.mp hr
    cases v with
    | obj vk =>
      simp only [variantStep] at hv2
      split at hv2
      · cases hv2
        exact ⟨rfl, rfl, rfl, rfl⟩
      · cases hv2
    | null => cases hv2
    | bool b => cases hv2
    | num q => cases hv2
    | str s => cases hv2
    | arr xs => cases hv2
  · intro hall
    rw [hb, List.filterMap_eq_nil_iff]
    intro v hvmem
    cases v with
    | obj vk => simp [variantStep, hall vk hvmem]
    | null => rfl
    | bool b => rfl
    | num q => rfl
    | str s => rfl
    | arr xs => rfl

/-- C3 witness: the concrete product c3p has three variants of which two
pass the stock check, and row building yields exactly those two rows. -/
theorem variant_fanout_c3_witness :
    build_rows_from_product c3p "u" none =
      c3vs.filterMap (variantStep c3p "u" none "Prod") ∧
    (build_rows_from_product c3p "u" none).length = 2 :=
  ⟨(variant_fanout_c3 c3p "u" none "Prod" (by decide) c3vs (by decide) (by decide)).1,
   by decide⟩

/-- C4 counterexample: the variant c4variant carries specialPrice as its
first-listed price field with value 0, yet the emitted row stores the
price 5, because the or-chain of source lines 251-256 skips falsy
present values rather than taking the first present field. -/
theorem variant_price_priority_c4_counterexample :
    dget c4variant "specialPrice" = JVal.num 0 ∧
    (build_rows_from_product c4p "u" none).map Row.price = [JVal.num 5] := by decide

/-! ## Lemmas about or-chains -/

theorem pyOr_chain2 (a b : JVal) :
    pyOr a b = ([a, b].find? truthy).getD b := by
  by_cases ha : truthy a <;> by_cases hb : truthy b <;>
    simp [pyOr, List.find?, ha, hb]

theorem pyOr_chain3 (a b c : JVal) :
    pyOr (pyOr a b) c = ([a, b, c].find? truthy).getD c := by
  by_cases ha : truthy a <;> by_cases hb : truthy b <;> by_cases hc : truthy c <;>
    simp [pyOr, List.find?, ha, hb, hc]

theorem pyOr_chain4 (a b c d : JVal) :
    pyOr (pyOr (pyOr a b) c) d = ([a, b, c, d].find? truthy).getD d := by
  by_cases ha : truthy a <;> by_cases hb : truthy b <;> by_cases hc : truthy c <;>
    by_cases hd : truthy d <;> simp [pyOr, List.find?, ha, hb, hc, hd]

/-- C4 amended: in an emitted variant row, price is the first
Python-truthy value among specialPrice, price, amount, listPrice,
defaulting to the raw listPrice value when none is truthy; size is
likewise the first truthy of size, weight, option, stringified unless
null; the SKU is the string of the first truthy of the variant id and
variantId fields, falling back to the product identifier exactly when
the variant carries no truthy id of its own. -/
theorem variant_fields_amended_c4 (p : PyDict) (url : String) (mt : Option String)
    (name : String) (vk : PyDict) :
    (variantRow p url mt name vk).price =
      (firstTruthyVal vk ["specialPrice", "price", "amount", "listPrice"]).getD
        (dget vk "listPrice") ∧
    (variantRow p url mt name vk).size =
      (let sz := (firstTruthyVal vk ["size", "weight", "option"]).getD (dget vk "option")
       if sz = .null then none else some (pyStr sz)) ∧
    (variantRow p url mt name vk).sku =
      (match firstTruthyVal vk ["id", "variantId"] with
       | some v => some (pyStr v)
       | none =>
         if truthy (productIdOf p) then some (pyStr (productIdOf p)) else none) := by
  refine ⟨?_, ?_, ?_⟩
  · show pyOr (pyOr (pyOr (dget vk "specialPrice") (dget vk "price"))
      (dget vk "amount")) (dget vk "listPrice") = _
    rw [pyOr_chain4]
    simp [firstTruthyVal]
  · show (let sz := pyOr (pyOr (dget vk "size") (dget vk "weight")) (dget vk "option")
      if sz = .null then none else some (pyStr sz)) = _
    rw [pyOr_chain3]
    simp [firstTruthyVal]
  · show (if truthy (pyOr (dget vk "id") (dget vk "variantId"))
        then some (pyStr (pyOr (dget vk "id") (dget vk "variantId")))
        else if truthy (productIdOf p) then some (pyStr (productIdOf p)) else none) = _
    rw [pyOr_chain2]
    cases hf : [dget vk "id", dget vk "variantId"].find? truthy with
    | some v =>
      have hv : truthy v = true := List.find?_some hf
      simp [firstTruthyVal, hf, hv]
    | none =>
      have hb : ¬ truthy (dget vk "variantId") = true := by
        have hall := List.find?_eq_none.mp hf
        exact hall _ (by simp)
      simp [firstTruthyVal, hf, hb]

/-- C4 amended witness at a concrete variant: specialPrice 0 is skipped,
price 5 is taken, size falls back through weight, and the SKU comes from
the variantId field. -/
theorem variant_fields_amended_c4_witness :
    (variantRow c4p "u" none "P"
      [("specialPrice", JVal.num 0), ("price", JVal.num 5),
       ("weight", JVal.str "1g"), ("variantId", JVal.str "v9")]).price =
      (firstTruthyVal
        [("specialPrice", JVal.num 0), ("price", JVal.num 5),
         ("weight", JVal.str "1g"), ("variantId", JVal.str "v9")]
        ["specialPrice", "price", "amount", "listPrice"]).getD
        (dget [("specialPrice", JVal.num 0), ("price", JVal.num 5),
               ("weight", JVal.str "1g"), ("variantId", JVal.str "v9")] "listPrice") :=
  (variant_fields_amended_c4 c4p "u" none "P"
    [("specialPrice", JVal.num 0), ("price", JVal.num 5),
     ("weight", JVal.str "1g"), ("variantId", JVal.str "v9")]).1

/-! ## Lemmas about the fallback product-list search -/

theorem find_product_list_accepts (xs : List JVal) (depth maxDepth : Nat)
    (hd : depth ≤ maxDepth)
    (h1 : (xs.filter isNamedDict).length ≥ min 2 xs.length)
    (h2 : 0 < (xs.filter isNamedDict).length) :
    find_product_list (.arr xs) depth maxDepth = xs := by
  unfold find_product_list
  rw [if_neg (by omega)]
  simp only []
  rw [if_pos ⟨h1, h2⟩]

theorem fplObj_spec (depth maxDepth : Nat) :
    ∀ (kvs : List (String × JVal)) (best : List JVal),
      (fplObj kvs depth maxDepth best = best ∨
        ∃ kv ∈ kvs, fplObj kvs depth maxDepth best =
          find_product_list kv.2 (depth + 1) maxDepth) ∧
      (∀ kv ∈ kvs,
        (find_product_list kv.2 (depth + 1) maxDepth).length ≤
          (fplObj kvs depth maxDepth best).length) ∧
      best.length ≤ (fplObj kvs depth maxDepth best).length := by
  intro kvs
  induction kvs with
  | nil =>
    intro best
    exact ⟨Or.inl rfl, by simp, le_refl _⟩
  | cons kv rest ih =>
    intro best
    obtain ⟨k, v⟩ := kv
    simp only [fplObj]
    by_cases hlen : best.length < (find_product_list v (depth + 1) maxDepth).length
    · rw [if_pos hlen]
      obtain ⟨g1, g2, g3⟩ := ih (find_product_list v (depth + 1) maxDepth)
      refine ⟨?_, ?_, le_trans (le_of_lt hlen) g3⟩
      · cases g1 with
        | inl h => exact Or.inr ⟨(k, v), by simp, h⟩
        | inr h =>
          obtain ⟨kv2, hm, he⟩ := h
          exact Or.inr ⟨kv2, List.mem_cons_of_mem _ hm, he⟩
      · intro kv2 hm
        rcases List.mem_cons.mp hm with h | h
        · rw [h]
          exact g3
        · exact g2 kv2 h
    · rw [if_neg hlen]
      obtain ⟨g1, g2, g3⟩ := ih best
      refine ⟨?_, ?_, g3⟩
      · cases g1 with
        | inl h => exact Or.inl h
        | inr h =>
          obtain ⟨kv2, hm, he⟩ := h
          exact Or.inr ⟨kv2, List.mem_cons_of_mem _ hm, he⟩
      · intro kv2 hm
        rcases List.mem_cons.mp hm with h | h
        · rw [h]
          exact le_trans (Nat.le_of_not_lt hlen) g3
        · exact g2 kv2 h

/-- C5 counterexample: in c5body both the outer list (length 3) and the
inner list (length 4) qualify under the min(2, length) rule, but the
search returns the outer list as soon as it qualifies, so the largest
qualifying list does not win when nested inside another qualifying
list. -/
theorem fallback_largest_c5_counterexample :
    find_product_list c5body 0 6 = c5outer ∧
    (c5inner.filter isNamedDict).length ≥ min 2 c5inner.length ∧
    0 < (c5inner.filter isNamedDict).length ∧
    (c5outer.filter isNamedDict).length ≥ min 2 c5outer.length ∧
    0 < (c5outer.filter isNamedDict).length ∧
    c5outer.length < c5inner.length := by decide

/-- C5 amended: a list qualifies when at least min(2, length) of its
elements, and at least one, are dicts with a name or title key, and a
qualifying list is returned as soon as it is reached, so the largest
candidate wins only among the results obtained under the different keys
of a dict; and the concrete document with an unrecognised shape holding
one list of five title dicts yields exactly that list. -/
theorem fallback_extraction_amended_c5 :
    (∀ (xs : List JVal) (depth maxDepth : Nat), depth ≤ maxDepth →
       (xs.filter isNamedDict).length ≥ min 2 xs.length →
       0 < (xs.filter isNamedDict).length →
       find_product_list (.arr xs) depth maxDepth = xs) ∧
    (∀ (kvs : List (String × JVal)) (depth maxDepth : Nat), depth ≤ maxDepth →
       (find_product_list (.obj kvs) depth maxDepth = [] ∨
         ∃ kv ∈ kvs, find_product_list (.obj kvs) depth maxDepth =
           find_product_list kv.2 (depth + 1) maxDepth) ∧
       (∀ kv ∈ kvs,
         (find_product_list kv.2 (depth + 1) maxDepth).length ≤
           (find_product_list (.obj kvs) depth maxDepth).length)) ∧
    extract_products_from_payload c5payload = c5five := by
  refine ⟨find_product_list_accepts, ?_, by decide⟩
  intro kvs depth maxDepth hd
  have h : find_product_list (.obj kvs) depth maxDepth = fplObj kvs depth maxDepth [] := by
    unfold find_product_list
    rw [if_neg (by omega)]
  obtain ⟨g1, g2, _⟩ := fplObj_spec depth maxDepth kvs []
  rw [h]
  exact ⟨g1, g2⟩

/-- C5 amended witness: the five-element title list qualifies and is
returned unchanged at depth 2. -/
theorem fallback_extraction_amended_c5_witness :
    find_product_list (.arr c5five) 2 6 = c5five :=
  fallback_extraction_amended_c5.1 c5five 2 6 (by decide) (by decide) (by decide)

/-! ## Lemmas about the pagination loop -/

theorem sigsRange_cons (F : Nat → List Row) (pg d : Nat) :
    sigsRange F pg (d + 1) = sigOf (F pg) :: sigsRange F (pg + 1) d := by
  simp [sigsRange, List.range'_succ]

theorem crawlCatAux_run (F : Nat → List Row) :
    ∀ (d pg fuel : Nat) (prevSigs : List (List (String × JVal × Option String)))
      (st : CrawlState) (req : List Nat) (counts : List (Nat × Nat)),
      d ≤ fuel →
      (∀ i, i < d → (F (pg + i)).isEmpty = false) →
      (∀ i, i < d →
        sigMem (sigOf (F (pg + i))) ((sigsRange F pg i).reverse ++ prevSigs) = false) →
      crawlCatAux F pg fuel prevSigs st req counts =
        crawlCatAux F (pg + d) (fuel - d) ((sigsRange F pg d).reverse ++ prevSigs)
          (addRange F pg d st) (req ++ List.range' pg d)
          (counts ++ countsRange F pg d st) := by
  intro d
  induction d with
  | zero =>
    intro pg fuel prevSigs st req counts _ _ _
    simp [sigsRange, addRange, countsRange]
  | succ d ih =>
    intro pg fuel prevSigs st req counts hd hne hfr
    obtain ⟨f, rfl⟩ : ∃ f, fuel = f + 1 := ⟨fuel - 1, by omega⟩
    have h0ne : (F pg).isEmpty = false := by simpa using hne 0 (by omega)
    have h0fr : sigMem (sigOf (F pg)) prevSigs = false := by
      simpa [sigsRange] using hfr 0 (by omega)
    simp only [crawlCatAux]
    rw [if_neg (by simp [h0ne]), if_neg (by simp [h0fr])]
    rw [ih (pg + 1) f (sigOf (F pg) :: prevSigs) (dedup_and_add st (F pg)).1
      (req ++ [pg]) (counts ++ [(pg, (dedup_and_add st (F pg)).2)]) (by omega)
      (fun i hi => by
        have h := hne (i + 1) (by omega)
        rwa [show pg + (i + 1) = pg + 1 + i by omega] at h)
      (fun i hi => by
        have h := hfr (i + 1) (by omega)
        rw [show pg + (i + 1) = pg + 1 + i by omega, sigsRange_cons] at h
        simpa [List.append_assoc] using h)]
    rw [show pg + 1 + d = pg + (d + 1) by omega, Nat.succ_sub_succ]
    rw [sigsRange_cons]
    simp only [addRange, countsRange, List.reverse_cons, List.append_assoc,
      List.range'_succ, List.cons_append, List.nil_append, List.singleton_append]

/-- C6: when the pages before n are nonempty with pairwise fresh
signatures and page n yields zero rows, the category stops at page n:
pages 1..n are requested and nothing beyond, the count recorded for page
n is zero, and the final state is the one accumulated through page n-1. -/
theorem pagination_stop_empty_c6 (F : Nat → List Row) (maxPages n : Nat)
    (st : CrawlState)
    (h1 : 1 ≤ n) (h2 : n ≤ maxPages)
    (hempty : F n = [])
    (hne : ∀ m, m < n → 1 ≤ m → F m ≠ [])
    (hfresh : ∀ m, m < n → ∀ j, j < m → 1 ≤ j →
      sigEq (sigOf (F m)) (sigOf (F j)) = false) :
    (crawlCat F maxPages st).requested = List.range' 1 n ∧
    (crawlCat F maxPages st).counts = countsRange F 1 (n - 1) st ++ [(n, 0)] ∧
    (crawlCat F maxPages st).state = addRange F 1 (n - 1) st ∧
    ∀ p ∈ (crawlCat F maxPages st).requested, p ≤ n := by
  unfold crawlCat
  rw [crawlCatAux_run F (n - 1) 1 maxPages [] st [] [] (by omega)
    (fun i hi => List.isEmpty_eq_false.mpr (hne (1 + i) (by omega) (by omega)))
    (fun i hi => by
      simp only [sigMem, List.append_nil, List.any_eq_false]
      intro t ht
      rw [List.mem_reverse] at ht
      simp only [sigsRange, List.mem_map] at ht
      obtain ⟨j, hj, rfl⟩ := ht
      rw [List.mem_range'_1] at hj
      simp [hfresh (1 + i) (by omega) j (by omega) (by omega)])]
  obtain ⟨f, hf⟩ : ∃ f, maxPages - (n - 1) = f + 1 := ⟨maxPages - n, by omega⟩
  rw [hf, show 1 + (n - 1) = n by omega]
  simp only [crawlCatAux]
  rw [if_pos (by simp [hempty])]
  have hreq : List.range' 1 (n - 1) ++ [n] = List.range' 1 n := by
    have := List.range'_1_concat 1 (n - 1)
    rw [show 1 + (n - 1) = n by omega] at this
    rw [show n - 1 + 1 = n by omega] at this
    exact this.symm
  refine ⟨by simpa using hreq, by simp, rfl, ?_⟩
  intro p hp
  simp only [List.nil_append, hreq] at hp
  rw [List.mem_range'_1] at hp
  omega

/-- C7: when page n repeats the signature of an earlier page of the same
category, the category stops at page n: pages 1..n are requested and no
more, the count recorded for page n is zero, and the final state is the
one accumulated through page n-1, so the rows of page n are not added
again. -/
theorem pagination_stop_repeat_c7 (F : Nat → List Row) (maxPages n : Nat)
    (st : CrawlState)
    (h1 : 2 ≤ n) (h2 : n ≤ maxPages)
    (hne : ∀ m, m ≤ n → 1 ≤ m → F m ≠ [])
    (hrep : ∃ j, 1 ≤ j ∧ j < n ∧ sigEq (sigOf (F n)) (sigOf (F j)) = true)
    (hfresh : ∀ m, m < n → ∀ j, j < m → 1 ≤ j →
      sigEq (sigOf (F m)) (sigOf (F j)) = false) :
    (crawlCat F maxPages st).requested = List.range' 1 n ∧
    (crawlCat F maxPages st).counts = countsRange F 1 (n - 1) st ++ [(n, 0)] ∧
    (crawlCat F maxPages st).state = addRange F 1 (n - 1) st := by
  unfold crawlCat
  rw [crawlCatAux_run F (n - 1) 1 maxPages [] st [] [] (by omega)
    (fun i hi => List.isEmpty_eq_false.mpr (hne (1 + i) (by omega) (by omega)))
    (fun i hi => by
      simp only [sigMem, List.append_nil, List.any_eq_false]
      intro t ht
      rw [List.mem_reverse] at ht
      simp only [sigsRange, List.mem_map] at ht
      obtain ⟨j, hj, rfl⟩ := ht
      rw [List.mem_range'_1] at hj
      simp [hfresh (1 + i) (by omega) j (by omega) (by omega)])]
  obtain ⟨f, hf⟩ : ∃ f, maxPages - (n - 1) = f + 1 := ⟨maxPages - n, by omega⟩
  rw [hf, show 1 + (n - 1) = n by omega]
  simp only [crawlCatAux]
  rw [if_neg (by simp [List.isEmpty_eq_false.mpr (hne n (le_refl n) (by omega))]),
    if_pos ?hsig]
  case hsig =>
    obtain ⟨j, hj1, hj2, hj3⟩ := hrep
    simp only [sigMem, List.append_nil]
    rw [List.any_eq_true]
    refine ⟨sigOf (F j), ?_, hj3⟩
    rw [List.mem_reverse]
    simp only [sigsRange, List.mem_map]
    exact ⟨j, by rw [List.mem_range'_1]; omega, rfl⟩
  have hreq : List.range' 1 (n - 1) ++ [n] = List.range' 1 n := by
    have := List.range'_1_concat 1 (n - 1)
    rw [show 1 + (n - 1) = n by omega] at this
    rw [show n - 1 + 1 = n by omega] at this
    exact this.symm
  exact ⟨by simpa using hreq, by simp, rfl⟩

/-- C6 witness: with one row on page 1 and none on page 2, exactly pages
1 and 2 are requested. -/
theorem pagination_stop_empty_c6_witness :
    (crawlCat c6F 5 ⟨[], []⟩).requested = List.range' 1 2 :=
  (pagination_stop_empty_c6 c6F 5 2 ⟨[], []⟩ (by decide) (by decide) (by decide)
    (by decide) (by decide)).1

/-- C7 witness: with the same single row served on every page, the crawl
requests pages 1 and 2 only and its final state is the one accumulated
after page 1. -/
theorem pagination_stop_repeat_c7_witness :
    (crawlCat c7F 5 ⟨[], []⟩).requested = List.range' 1 2 ∧
    (crawlCat c7F 5 ⟨[], []⟩).state = addRange c7F 1 1 ⟨[], []⟩ :=
  ⟨(pagination_stop_repeat_c7 c7F 5 2 ⟨[], []⟩ (by decide) (by decide) (by decide)
      ⟨1, by decide, by decide, by decide⟩ (by decide)).1,
   (pagination_stop_repeat_c7 c7F 5 2 ⟨[], []⟩ (by decide) (by decide) (by decide)
      ⟨1, by decide, by decide, by decide⟩ (by decide)).2.2⟩

/-! ## Lemmas about deduplication -/

theorem dedup_seen_mono (rows : List Row) :
    ∀ (st : CrawlState) (k), k ∈ st.seen → k ∈ (dedup_and_add st rows).1.seen := by
  induction rows with
  | nil => intro st k hk; exact hk
  | cons r rs ih =>
    intro st k hk
    simp only [dedup_and_add]
    by_cases h : rowKey r ∈ st.seen
    · rw [if_pos h]
      exact ih st k hk
    · rw [if_neg h]
      exact ih _ k (List.mem_cons_of_mem _ hk)

theorem dedup_mem_seen (rows : List Row) :
    ∀ (st : CrawlState) (r), r ∈ rows → rowKey r ∈ (dedup_and_add st rows).1.seen := by
  induction rows with
  | nil => intro st r h; cases h
  | cons r0 rs ih =>
    intro st r hr
    simp only [dedup_and_add]
    by_cases hk : rowKey r0 ∈ st.seen
    · rw [if_pos hk]
      rcases List.mem_cons.mp hr with h | h
      · subst h
        exact dedup_seen_mono rs st _ hk
      · exact ih st r h
    · rw [if_neg hk]
      rcases List.mem_cons.mp hr with h | h
      · subst h
        exact dedup_seen_mono rs _ _ (List.mem_cons_self _ _)
      · exact ih _ r h

theorem dedup_noop (rows : List Row) :
    ∀ (st : CrawlState), (∀ r ∈ rows, rowKey r ∈ st.seen) →
      dedup_and_add st rows = (st, 0) := by
  induction rows with
  | nil => intro st _; rfl
  | cons r rs ih =>
    intro st h
    simp only [dedup_and_add]
    rw [if_pos (h r (List.mem_cons_self _ _))]
    exact ih st fun x hx => h x (List.mem_cons_of_mem _ hx)

theorem dedup_inv (rows : List Row) :
    ∀ (st : CrawlState),
      (st.allRows.map rowKey).Nodup → (∀ r ∈ st.allRows, rowKey r ∈ st.seen) →
      ((dedup_and_add st rows).1.allRows.map rowKey).Nodup ∧
      (∀ r ∈ (dedup_and_add st rows).1.allRows,
        rowKey r ∈ (dedup_and_add st rows).1.seen) := by
  induction rows with
  | nil => intro st h1 h2; exact ⟨h1, h2⟩
  | cons r rs ih =>
    intro st h1 h2
    simp only [dedup_and_add]
    by_cases hk : rowKey r ∈ st.seen
    · rw [if_pos hk]
      exact ih st h1 h2
    · rw [if_neg hk]
      have hnotin : rowKey r ∉ st.allRows.map rowKey := by
        intro hmem
        obtain ⟨r0, hr0, he⟩ := List.mem_map.mp hmem
        exact hk (he ▸ h2 r0 hr0)
      refine ih _ ?_ ?_
      · simp only [List.map_append, List.map_cons, List.map_nil]
        rw [List.nodup_append]
        refine ⟨h1, List.nodup_singleton _, ?_⟩
        intro x hx
        simp only [List.mem_singleton]
        intro he
        exact hnotin (he ▸ hx)
      · intro x hx
        rcases List.mem_append.mp hx with h | h
        · exact List.mem_cons_of_mem _ (h2 x h)
        · rw [List.mem_singleton] at h
          subst h
          exact List.mem_cons_self _ _

theorem crawlCatAux_inv (F : Nat → List Row) :
    ∀ (fuel pg : Nat) (prevSigs : List (List (String × JVal × Option String)))
      (st : CrawlState) (req : List Nat) (counts : List (Nat × Nat)),
      (st.allRows.map rowKey).Nodup → (∀ r ∈ st.allRows, rowKey r ∈ st.seen) →
      (((crawlCatAux F pg fuel prevSigs st req counts).state.allRows.map rowKey).Nodup ∧
       ∀ r ∈ (crawlCatAux F pg fuel prevSigs st req counts).state.allRows,
         rowKey r ∈ (crawlCatAux F pg fuel prevSigs st req counts).state.seen) := by
  intro fuel
  induction fuel with
  | zero => intro pg prevSigs st req counts h1 h2; exact ⟨h1, h2⟩
  | succ f ih =>
    intro pg prevSigs st req counts h1 h2
    simp only [crawlCatAux]
    split
    · exact ⟨h1, h2⟩
    · split
      · exact ⟨h1, h2⟩
      · exact ih _ _ _ _ _ (dedup_inv (F pg) st h1 h2).1 (dedup_inv (F pg) st h1 h2).2

theorem crawlCategories_inv (pageF : String → Nat → List Row) :
    ∀ (cats : List String) (maxPages : Nat) (st : CrawlState),
      (st.allRows.map rowKey).Nodup → (∀ r ∈ st.allRows, rowKey r ∈ st.seen) →
      (((crawlCategories pageF cats maxPages st).allRows.map rowKey).Nodup ∧
       ∀ r ∈ (crawlCategories pageF cats maxPages st).allRows,
         rowKey r ∈ (crawlCategories pageF cats maxPages st).seen) := by
  intro cats
  induction cats with
  | nil => intro maxPages st h1 h2; exact ⟨h1, h2⟩
  | cons c cs ih =>
    intro maxPages st h1 h2
    have h := crawlCatAux_inv (pageF c) maxPages 1 [] st [] [] h1 h2
    exact ih maxPages _ h.1 h.2

/-- C8: the seen-key set is global across the entire crawl, so the keys
of the final accumulated rows are pairwise distinct no matter how many
categories served them, and feeding the deduplicator the same rows a
second time returns the same state and accepts nothing new. -/
theorem dedup_global_idempotent_c8 :
    (∀ (st : CrawlState) (rows : List Row),
       dedup_and_add (dedup_and_add st rows).1 rows = ((dedup_and_add st rows).1, 0)) ∧
    (∀ (pageF : String → Nat → List Row) (cats : List String) (maxPages : Nat),
       ((crawlCategories pageF cats maxPages ⟨[], []⟩).allRows.map rowKey).Nodup) := by
  constructor
  · intro st rows
    exact dedup_noop rows _ fun r hr => dedup_mem_seen rows st r hr
  · intro pageF cats maxPages
    exact (crawlCategories_inv pageF cats maxPages ⟨[], []⟩ (by simp) (by simp)).1

/-! ## Lemmas about cannabinoid and THC extraction -/

theorem build_rows_shape (p : PyDict) (url : String) (mt : Option String) :
    ∀ r ∈ build_rows_from_product p url mt,
      ∃ name, getProductName p = some name ∧
        ((∃ vk, r = variantRow p url mt name vk) ∨
          r = productLevelRow p url mt name) := by
  intro r hr
  unfold build_rows_from_product at hr
  cases hname : getProductName p with
  | none => simp only [hname] at hr; cases hr
  | some name =>
    refine ⟨name, rfl, ?_⟩
    simp only [hname] at hr
    cases hv : variantsOf p with
    | arr vs =>
      simp only [hv] at hr
      by_cases he : vs.isEmpty
      · rw [if_pos he, List.mem_singleton] at hr
        exact Or.inr hr
      · rw [if_neg he] at hr
        rw [foldl_rows (variantStep p url mt name) _
          (fun acc v => by (cases v <;> simp [variantStep]); (split <;> simp)),
          List.nil_append] at hr
        obtain ⟨v, _, hv2⟩ := List.mem_filterMap.mp hr
        cases v with
        | obj vk =>
          simp only [variantStep] at hv2
          split at hv2
          · cases hv2
            exact Or.inl ⟨vk, rfl⟩
          · cases hv2
        | null => cases hv2
        | bool b => cases hv2
        | num q => cases hv2
        | str s => cases hv2
        | arr xs => cases hv2
    | null => simp only [hv, List.mem_singleton] at hr; exact Or.inr hr
    | bool b => simp only [hv, List.mem_singleton] at hr; exact Or.inr hr
    | num q => simp only [hv, List.mem_singleton] at hr; exact Or.inr hr
    | str s => simp only [hv, List.mem_singleton] at hr; exact Or.inr hr
    | obj kvs => simp only [hv, List.mem_singleton] at hr; exact Or.inr hr

theorem extract_thc_append_clean (pre rest : PyDict)
    (h : ∀ kv ∈ pre, strLower kv.1 ∉ thcKeysL) :
    extract_thc (pre ++ rest) = extract_thc rest := by
  induction pre with
  | nil => rfl
  | cons kv pre ih =>
    obtain ⟨k, v⟩ := kv
    simp only [List.cons_append, extract_thc]
    rw [if_neg (h (k, v) (List.mem_cons_self _ _))]
    exact ih fun x hx => h x (List.mem_cons_of_mem _ hx)

/-- C9 counterexample: the product node c9p carries a directly numeric
thc field, which the numeric route of the generic parser reads as 22,
yet the row the crawler builds for it carries no THC at all, because the
crawler rows read THC only from the cannabinoids array. -/
theorem thc_routes_c9_counterexample :
    extract_thc c9p = some 22 ∧
    (build_rows_from_product c9p "u" none).map Row.thc = [none] := by decide

/-- C9 amended: the crawler rows obtain THC and CBD exclusively from the
cannabinoid-array route, while the numeric-field route and the
first-decimal-of-a-string route live in the generic parser. -/
theorem thc_routes_amended_c9 :
    (∀ (p : PyDict) (url : String) (mt : Option String),
       ∀ r ∈ build_rows_from_product p url mt,
         r.thc = extract_cannabinoid p "THC" ∧ r.cbd = extract_cannabinoid p "CBD") ∧
    (∀ (pre post : PyDict) (k : String) (q : ℚ),
       (∀ kv ∈ pre, strLower kv.1 ∉ thcKeysL) → strLower k ∈ thcKeysL →
       extract_thc (pre ++ (k, JVal.num q) :: post) = some q) ∧
    (∀ (pre post : PyDict) (k s : String) (q : ℚ),
       (∀ kv ∈ pre, strLower kv.1 ∉ thcKeysL) → strLower k ∈ thcKeysL →
       firstDecimal s = some q →
       extract_thc (pre ++ (k, JVal.str s) :: post) = some q) := by
  refine ⟨?_, ?_, ?_⟩
  · intro p url mt r hr
    obtain ⟨name, _, h | h⟩ := build_rows_shape p url mt r hr
    · obtain ⟨vk, rfl⟩ := h
      exact ⟨rfl, rfl⟩
    · subst h
      exact ⟨rfl, rfl⟩
  · intro pre post k q hpre hk
    rw [extract_thc_append_clean pre _ hpre]
    simp only [extract_thc]
    rw [if_pos hk]
  · intro pre post k s q hpre hk hs
    rw [extract_thc_append_clean pre _ hpre]
    simp only [extract_thc]
    rw [if_pos hk, hs]

/-- C9 amended witness: the numeric route and the string route of the
parser yield values on concrete fields, and the concrete crawler row of
c9p carries exactly the cannabinoid-array extraction. -/
theorem thc_routes_amended_c9_witness :
    extract_thc [("thc", JVal.num 22)] = some 22 ∧
    extract_thc [("thcContent", JVal.str "THC: 21%")] = some 21 ∧
    ((productLevelRow c9p "u" none "X").thc = extract_cannabinoid c9p "THC" ∧
     (productLevelRow c9p "u" none "X").cbd = extract_cannabinoid c9p "CBD") :=
  ⟨thc_routes_amended_c9.2.1 [] [] "thc" 22 (by decide) (by decide),
   thc_routes_amended_c9.2.2 [] [] "thcContent" "THC: 21%" 21 (by decide) (by decide)
     (by decide),
   thc_routes_amended_c9.1 c9p "u" none (productLevelRow c9p "u" none "X") (by decide)⟩

/-- C10: the Price column of the returned table is the entry-by-entry
numeric coercion of the stored row prices, so a row whose stored price
is a string that does not parse as a number appears in the output with
Price NaN, modelled as none, rather than the original value. -/
theorem price_column_coerced_c10
    (pageF : String → Nat → List Row) (cats : List String) (maxPages : Nat)
    (i : Nat) (r : Row) (s : String)
    (hr : (crawl_dutchie_table pageF cats maxPages).1[i]? = some r)
    (hs : r.price = JVal.str s)
    (hp : to_numeric_string s = none) :
    (crawl_dutchie_table pageF cats maxPages).2[i]? = some none := by
  simp only [crawl_dutchie_table] at hr ⊢
  rw [List.getElem?_map, hr]
  simp [to_numeric_coerce, hs, hp]

/-- C10 witness: the crawl of the payload whose product price is the
string $10.00 stores that raw string in its row and emits NaN in the
Price column. -/
theorem price_column_coerced_c10_witness :
    (crawl_dutchie_table c10F ["flower"] 3).2[0]? = some none :=
  price_column_coerced_c10 c10F ["flower"] 3 0 c10row "$10.00" (by decide) (by decide)
    (by decide)
